import Mathlib

/-!
Shallow embedding of the nl-railtraffic-etl-pipeline transform-and-load core:
`src/transformation/cleaners.py` (DisruptionCleaner) and `src/pipeline.py`
(ETLPipeline raw insert / normalized upsert paths).

Modelling conventions:
* timestamps are rationals (seconds since an arbitrary epoch); pandas float64
  durations are modelled as exact rationals;
* a missing field / pandas NaN is `Option.none`;
* the SQLite stores are association lists threaded explicitly; the `UNIQUE`
  constraint on `disruption_id` in the raw table is stated by the spec (the
  schema module `storage/database.py` is not part of the sources), so
  `INSERT OR IGNORE` is embedded as insert-if-key-absent.
-/

namespace NLRail

/-- Python `str.lower` as used on type labels (`df['type'].str.lower()` and
`str(disruption_type).lower()` in cleaners.py), written as a character-wise
map so that it evaluates by kernel reduction. -/
def pyLower (s : String) : String := String.mk (s.toList.map Char.toLower)

/-- `self.type_mapping` from `DisruptionCleaner.__init__` (cleaners.py lines 18-23). -/
def type_mapping : List (String × String) :=
  [("verstoring", "disruption"),
   ("werkzaamheden", "maintenance"),
   ("calamiteit", "calamity"),
   ("storing", "disruption")]

/-- First-key lookup in an association list (pandas `Series.map(dict)` hit/miss). -/
def lookupAssoc : List (String × String) → String → Option String
  | [], _ => none
  | (k, v) :: rest, s => if s = k then some v else lookupAssoc rest s

/-- Type normalization from `_extract_basic_fields` (cleaners.py lines 74-76):
`df['type'] = df['type'].str.lower()` followed by
`df['type'].map(self.type_mapping).fillna(df['type'])` — the fillna source is
the already-lowercased column, so unmapped labels pass through lowercased. -/
def normalize_type (t : String) : String :=
  match lookupAssoc type_mapping (pyLower t) with
  | some v => v
  | none => pyLower t

/-- Bool test that `needle` is a prefix of `hay` (character lists). -/
def prefixChars : List Char → List Char → Bool
  | [], _ => true
  | _ :: _, [] => false
  | c :: cs, d :: ds => c = d && prefixChars cs ds

/-- Bool test that `needle` occurs as a contiguous substring of `hay`
(character lists); embeds Python's `needle in hay` on strings. -/
def subChars (needle : List Char) : List Char → Bool
  | [] => prefixChars needle []
  | d :: ds => prefixChars needle (d :: ds) || subChars needle ds

/-- Python `needle in hay` for strings. -/
def strContainsSub (hay needle : String) : Bool :=
  subChars needle.toList hay.toList

/-- `DisruptionCleaner._calculate_impact_level` (cleaners.py lines 133-171).
`ty` is `row.get('type', '')` (`none` = missing/NaN, read as `""`);
`dur` is `row.get('duration_minutes', 0)` with `pd.isna` mapped to 0. -/
def calculate_impact_level (ty : Option String) (dur : Option ℚ) : Int :=
  let t := ty.getD ""
  let d := dur.getD 0
  if t = "calamity" then 5
  else if strContainsSub (pyLower t) "cancel" then 5
  else if t = "maintenance" then
    if d > 240 then 4 else 3
  else if t = "disruption" then
    if d > 120 then 4
    else if d > 60 then 3
    else 2
  else 2

/-- Duration computation from `_calculate_metrics` (cleaners.py lines 116-126):
`(end_time - start_time).dt.total_seconds() / 60`, nulled when either
timestamp is missing and nulled (not clamped) when negative. -/
def calculate_duration (startT endT : Option ℚ) : Option ℚ :=
  match startT, endT with
  | some s, some e =>
      let d := (e - s) / 60
      if d < 0 then none else some d
  | _, _ => none

/-- The duration/impact part of `_calculate_metrics` (cleaners.py lines 109-131):
the stored `duration_minutes` and the derived `impact_level` of one row. -/
def calculate_metrics (ty : Option String) (startT endT : Option ℚ) : Option ℚ × Int :=
  let dm := calculate_duration startT endT
  (dm, calculate_impact_level ty dm)

/-- `df['impact_level'].clip(lower=1, upper=5)` from `_validate_and_clean`
(cleaners.py line 247). -/
def clipImpact (x : Int) : Int := min 5 (max 1 x)

/-- The severity decision table as the spec states it: an ordered list of
(predicate, level) pairs over the effective type string and the effective
duration (missing duration already defaulted to 0), first match wins,
default level 2. -/
def severityRules : List ((String → ℚ → Bool) × Int) :=
  [(fun t _ => t = "calamity", 5),
   (fun t _ => strContainsSub (pyLower t) "cancel", 5),
   (fun t d => t = "maintenance" && d > 240, 4),
   (fun t _ => t = "maintenance", 3),
   (fun t d => t = "disruption" && d > 120, 4),
   (fun t d => t = "disruption" && d > 60, 3)]

/-- First-match-wins evaluation of a severity rule table, default level 2. -/
def firstMatch : List ((String → ℚ → Bool) × Int) → String → ℚ → Int
  | [], _, _ => 2
  | (p, lvl) :: rest, t, d => if p t d then lvl else firstMatch rest t d

/-! ## Station extraction (`DisruptionCleaner._extract_stations`, cleaners.py 173-229) -/

/-- One entry of a `section.stations` list: `some code` when the entry is a
dict carrying a `uicCode` key (the code is added verbatim, even if empty),
`none` otherwise (non-dict entry or missing key). -/
structure SectionStation where
  uicCode : Option String
deriving DecidableEq, Repr

/-- One entry of the `timespans` list: `some codes` when the entry is a dict
whose `situation` is a dict with a `stations` list — `codes` are the
`station.get('stationCode', '')` values in order (possibly empty strings);
`none` for any other shape. -/
structure TimespanEntry where
  codes : Option (List String)
deriving DecidableEq, Repr

/-- The station-bearing slice of one raw record as `_extract_stations` reads it.
`sectionVal` models the `section` field (Python key `'section'`; `section` is a
Lean keyword): `some stations` when the field is a dict with a truthy
`stations` list, `none` when the field is absent, NaN, not a dict, or has no
truthy `stations`. `title` is the raw title (`none` = absent or non-string). -/
structure StationSource where
  sectionVal : Option (List SectionStation)
  timespans : Option (List TimespanEntry)
  title : Option String
deriving DecidableEq, Repr

/-- Strategy 1 (cleaners.py 185-195): collect `uicCode` values from
`section.stations`. -/
def stationsFromSection (sec : Option (List SectionStation)) : List String :=
  match sec with
  | none => []
  | some stations => stations.filterMap (fun st => st.uicCode)

/-- Strategy 2 (cleaners.py 197-210): collect non-empty `stationCode` values
from each timespan's `situation.stations`. -/
def stationsFromTimespans (ts : Option (List TimespanEntry)) : List String :=
  match ts with
  | none => []
  | some entries =>
      (entries.map (fun e => (e.codes.getD []).filter (fun c => !c.isEmpty))).flatten

/-- ASCII word character, embedding `\w` of the regex `\b[A-Z]{2,5}\b`
(titles from the feed are ASCII in the modelled fragment). -/
def isWordChar (c : Char) : Bool :=
  c.isAlpha || c.isDigit || c == '_'

/-- Split a character list into its maximal runs of word characters
(`acc` is the current run, reversed). -/
def wordRuns : List Char → List Char → List (List Char)
  | [], acc => if acc.isEmpty then [] else [acc.reverse]
  | c :: cs, acc =>
      if isWordChar c then wordRuns cs (c :: acc)
      else if acc.isEmpty then wordRuns cs []
      else acc.reverse :: wordRuns cs []

/-- A token matched by `\b[A-Z]{2,5}\b`: a maximal word run consisting of
2 to 5 uppercase ASCII letters. -/
def upperToken (t : List Char) : Bool :=
  t.all (fun c => decide ('A' ≤ c ∧ c ≤ 'Z')) && decide (2 ≤ t.length) && decide (t.length ≤ 5)

/-- Strategy 3 (cleaners.py 212-218): `re.findall(r'\b[A-Z]{2,5}\b', title)`. -/
def stationsFromTitle (title : Option String) : List String :=
  match title with
  | none => []
  | some t => ((wordRuns t.toList []).filter upperToken).map (fun l => String.mk l)

/-- `≤` on strings by code points (Python's string ordering used by `sorted`). -/
def charListLe : List Char → List Char → Bool
  | [], _ => true
  | _ :: _, [] => false
  | c :: cs, d :: ds => if c = d then charListLe cs ds else Nat.blt c.toNat d.toNat

/-- Python `sorted` comparison on strings. -/
def strLe (a b : String) : Bool := charListLe a.toList b.toList

/-- Insertion sort by `strLe`, embedding Python's `sorted`. -/
def sortStrings (l : List String) : List String :=
  List.insertionSort (fun a b => strLe a b = true) l

/-- `','.join(sorted(stations)) if stations else None` (cleaners.py line 225);
the Python `set` is embedded as deduplication. -/
def serializeStations (codes : List String) : Option String :=
  let ded := codes.dedup
  if ded.isEmpty then none else some (String.intercalate "," (sortStrings ded))

/-- `_extract_stations` on one record (cleaners.py 181-225): strategies 1 and 2
both always run and their results accumulate into the same set; strategy 3
runs only when that set is still empty. -/
def extract_stations (r : StationSource) : Option String :=
  let s12 := stationsFromSection r.sectionVal ++ stationsFromTimespans r.timespans
  let all := if s12.isEmpty then stationsFromTitle r.title else s12
  serializeStations all

/-- The extraction the claim describes (for the refutation of the early-stop
reading): try the three strategies in order and stop at the first yielding a
non-empty set. -/
def claimedFirstNonEmptyExtract (r : StationSource) : Option String :=
  let s1 := stationsFromSection r.sectionVal
  let s2 := stationsFromTimespans r.timespans
  let chosen := if !s1.isEmpty then s1
    else if !s2.isEmpty then s2
    else stationsFromTitle r.title
  serializeStations chosen

/-! ## Validation (`DisruptionCleaner._validate_and_clean`, cleaners.py 231-266) -/

/-- A row as it enters `_validate_and_clean`: identifier possibly missing,
derived fields already computed by the earlier stages. -/
structure PreRow where
  disruption_id : Option String
  type : Option String
  title : Option String
  description : Option String
  start_time : Option ℚ
  end_time : Option ℚ
  duration_minutes : Option ℚ
  impact_level : Int
  affected_stations : Option String
deriving DecidableEq, Repr

/-- A canonical row as `clean` returns it (after validation, clamping and
metadata stamping). -/
structure CleanRow where
  disruption_id : String
  type : Option String
  title : Option String
  description : Option String
  start_time : Option ℚ
  end_time : Option ℚ
  duration_minutes : Option ℚ
  impact_level : Int
  affected_stations : Option String
  is_resolved : Int
  created_at : ℚ
  updated_at : ℚ
deriving DecidableEq, Repr

/-- `_validate_and_clean` (cleaners.py 231-266): drop rows whose
`disruption_id` is NaN (`df[df['disruption_id'].notna()]`), clamp
`impact_level` into [1,5], stamp `is_resolved = 0` and
`created_at = updated_at = now`. Returns the kept rows and the removed count
(`before_count - len(df)`, cleaners.py line 241). -/
def validate_and_clean (rows : List PreRow) (now : ℚ) : List CleanRow × Nat :=
  let kept := rows.filter (fun r => r.disruption_id.isSome)
  (kept.map (fun r =>
    { disruption_id := r.disruption_id.getD ""
      type := r.type
      title := r.title
      description := r.description
      start_time := r.start_time
      end_time := r.end_time
      duration_minutes := r.duration_minutes
      impact_level := clipImpact r.impact_level
      affected_stations := r.affected_stations
      is_resolved := 0
      created_at := now
      updated_at := now }),
   rows.length - kept.length)

/-! ## Raw store (`ETLPipeline._save_raw_data`, pipeline.py 142-177) -/

/-- One raw feed item as `_save_raw_data` reads it: `item.get('id')`
(`none` = key absent) and the serialized payload `json.dumps(item)`. -/
structure RawItem where
  id : Option String
  rawJson : String
deriving DecidableEq, Repr

/-- The `raw_disruptions` table: (disruption_id, raw_json) rows.
`disruption_id` is declared UNIQUE per the spec (the schema module is not in
the sources), which is what makes `INSERT OR IGNORE` an insert-if-absent. -/
abbrev RawDB := List (String × String)

/-- Key-presence test on the raw table. -/
def rawHasKey (db : RawDB) (k : String) : Bool :=
  db.any (fun p => p.1 == k)

/-- First payload stored under a key. -/
def rawLookup (db : RawDB) (k : String) : Option String :=
  (db.find? (fun p => p.1 == k)).map (fun p => p.2)

/-- `INSERT OR IGNORE INTO raw_disruptions` (pipeline.py 161-165) under the
spec-stated UNIQUE constraint: a no-op when the key exists, an append
otherwise. The Bool is `cursor.rowcount > 0`. -/
def insertIfAbsent (db : RawDB) (k payload : String) : RawDB × Bool :=
  if rawHasKey db k then (db, false) else (db ++ [(k, payload)], true)

/-- Python truthiness of `item.get('id')`: `None` and `""` are falsy. -/
def truthyId : Option String → Bool
  | none => false
  | some s => !s.isEmpty

/-- Counters reported by `_save_raw_data`. -/
structure RawCounts where
  inserted : Nat
  skipped : Nat
deriving DecidableEq, Repr

/-- `_save_raw_data` (pipeline.py 142-177): items without a truthy id are
passed over (`continue`, counted in neither tally); the rest go through
`INSERT OR IGNORE`, counting inserted (`rowcount > 0`) vs skipped. -/
def save_raw_data : List RawItem → RawDB → RawDB × RawCounts
  | [], db => (db, ⟨0, 0⟩)
  | item :: rest, db =>
      match item.id with
      | none => save_raw_data rest db
      | some s =>
          if s.isEmpty then save_raw_data rest db
          else
            let step := insertIfAbsent db s item.rawJson
            let tail := save_raw_data rest step.1
            (tail.1,
             if step.2 then ⟨tail.2.inserted + 1, tail.2.skipped⟩
             else ⟨tail.2.inserted, tail.2.skipped + 1⟩)

/-! ## Normalized store (`ETLPipeline._save_cleaned_data`, pipeline.py 179-266) -/

/-- A stored row of the `disruptions` table (the autoincrement surrogate `id`
column, used only as an existence token by the SELECT, is omitted). -/
structure DBRow where
  disruption_id : String
  type : Option String
  title : Option String
  description : Option String
  start_time : Option ℚ
  end_time : Option ℚ
  duration_minutes : Option ℚ
  impact_level : Int
  affected_stations : Option String
  is_resolved : Int
  created_at : ℚ
  updated_at : ℚ
deriving DecidableEq, Repr

/-- The `disruptions` table. -/
abbrev NormDB := List DBRow

/-- `SELECT id FROM disruptions WHERE disruption_id = ?` (pipeline.py 204-208),
used only for existence. -/
def findRow (db : NormDB) (k : String) : Option DBRow :=
  db.find? (fun r => r.disruption_id == k)

/-- Key-presence test on the normalized table. -/
def normHasKey (db : NormDB) (k : String) : Bool :=
  db.any (fun r => r.disruption_id == k)

/-- The `UPDATE disruptions SET ...` statement (pipeline.py 212-235): the nine
listed columns take the incoming row's values; every other column keeps the
stored value. -/
def updateRow (r : DBRow) (row : CleanRow) : DBRow :=
  { r with
    type := row.type
    title := row.title
    description := row.description
    start_time := row.start_time
    end_time := row.end_time
    duration_minutes := row.duration_minutes
    impact_level := row.impact_level
    affected_stations := row.affected_stations
    updated_at := row.updated_at }

/-- The `INSERT INTO disruptions (...)` statement (pipeline.py 239-259). -/
def insertRow (row : CleanRow) : DBRow :=
  { disruption_id := row.disruption_id
    type := row.type
    title := row.title
    description := row.description
    start_time := row.start_time
    end_time := row.end_time
    duration_minutes := row.duration_minutes
    impact_level := row.impact_level
    affected_stations := row.affected_stations
    is_resolved := row.is_resolved
    created_at := row.created_at
    updated_at := row.updated_at }

/-- One iteration of the upsert loop in `_save_cleaned_data` (pipeline.py
201-260): check-then-act — the SQL UPDATE rewrites every row matching the
key, the INSERT appends. The Bool records which branch ran (true = update). -/
def upsertRow (db : NormDB) (row : CleanRow) : NormDB × Bool :=
  if (findRow db row.disruption_id).isSome then
    (db.map (fun r =>
      if r.disruption_id == row.disruption_id then updateRow r row else r), true)
  else
    (db ++ [insertRow row], false)

/-- `_save_cleaned_data` over a cleaned batch: upserts row by row. -/
def save_cleaned_data : List CleanRow → NormDB → NormDB
  | [], db => db
  | row :: rest, db => save_cleaned_data rest (upsertRow db row).1

/-- The code list one record's extraction actually works from (amended reading
of the station-extraction claim): strategies 1 and 2 accumulate into one set;
the title scan applies only when that set is empty. -/
def collectedStations (r : StationSource) : List String :=
  let s12 := stationsFromSection r.sectionVal ++ stationsFromTimespans r.timespans
  if s12.isEmpty then stationsFromTitle r.title else s12

/-- A record whose structured `section` and `timespans` fields carry different
station codes — the input separating the implemented union behaviour from the
claimed first-non-empty-strategy behaviour. -/
def cexStationRecord : StationSource :=
  { sectionVal := some [{ uicCode := some "AAA" }]
    timespans := some [{ codes := some ["BBB"] }]
    title := none }

/-- The record of the spec's station-extraction scenario: title only. -/
def titleOnlyRecord : StationSource :=
  { sectionVal := none, timespans := none, title := some "Storing tussen ASD en UTR" }

/-! ## Theorems -/

theorem charListLe_total : ∀ a b : List Char, charListLe a b = true ∨ charListLe b a = true
  | [], _ => Or.inl rfl
  | _ :: _, [] => Or.inr rfl
  | c :: cs, d :: ds => by
      by_cases h : c = d
      · subst h
        simpa [charListLe] using charListLe_total cs ds
      · have hne : c.toNat ≠ d.toNat := fun hn => h (Char.ext (UInt32.ext hn))
        rcases Nat.lt_or_ge c.toNat d.toNat with hlt | hge
        · exact Or.inl (by simp [charListLe, h, Nat.blt_eq, hlt])
        · have hlt : d.toNat < c.toNat := lt_of_le_of_ne hge (Ne.symm hne)
          have hdc : d ≠ c := fun hn => h hn.symm
          exact Or.inr (by simp [charListLe, hdc, Nat.blt_eq, hlt])

theorem charListLe_trans : ∀ a b c : List Char,
    charListLe a b = true → charListLe b c = true → charListLe a c = true
  | [], _, _, _, _ => rfl
  | x :: xs, [], _, hab, _ => by simp [charListLe] at hab
  | x :: xs, y :: ys, [], _, hbc => by simp [charListLe] at hbc
  | x :: xs, y :: ys, z :: zs, hab, hbc => by
      by_cases hxy : x = y <;> by_cases hyz : y = z
      · subst hxy; subst hyz
        simp only [charListLe, if_pos rfl] at hab hbc ⊢
        exact charListLe_trans xs ys zs hab hbc
      · subst hxy
        simp only [charListLe, if_pos rfl] at hab
        simp only [charListLe, if_neg hyz] at hbc
        simp only [charListLe, if_neg hyz]
        exact hbc
      · subst hyz
        simp only [charListLe, if_neg hxy] at hab
        simp only [charListLe, if_neg hxy]
        exact hab
      · simp only [charListLe, if_neg hxy] at hab
        simp only [charListLe, if_neg hyz] at hbc
        have h1 : x.toNat < y.toNat := by simpa [Nat.blt_eq] using hab
        have h2 : y.toNat < z.toNat := by simpa [Nat.blt_eq] using hbc
        have h3 : x.toNat < z.toNat := h1.trans h2
        have hxz : x ≠ z := fun he => by
          subst he
          exact absurd rfl (Nat.ne_of_lt h3)
        simp [charListLe, hxz, Nat.blt_eq, h3]

theorem strLe_total (a b : String) : strLe a b = true ∨ strLe b a = true :=
  charListLe_total a.toList b.toList

theorem strLe_trans (a b c : String) :
    strLe a b = true → strLe b c = true → strLe a c = true :=
  charListLe_trans a.toList b.toList c.toList

theorem serializeStations_spec (codes : List String) :
    ∃ l : List String, l.Sorted (fun a b => strLe a b = true) ∧ l.Nodup ∧
      (∀ c, c ∈ l ↔ c ∈ codes) ∧
      serializeStations codes = if l.isEmpty then none else some (String.intercalate "," l) := by
  haveI : IsTotal String (fun a b => strLe a b = true) := ⟨strLe_total⟩
  haveI : IsTrans String (fun a b => strLe a b = true) := ⟨strLe_trans⟩
  have hp : List.Perm (sortStrings codes.dedup) codes.dedup :=
    List.perm_insertionSort _ _
  refine ⟨sortStrings codes.dedup, ?_, ?_, ?_, ?_⟩
  · exact List.sorted_insertionSort _ _
  · exact hp.nodup_iff.mpr codes.nodup_dedup
  · intro c
    rw [hp.mem_iff, List.mem_dedup]
  · have hlen : (sortStrings codes.dedup).length = codes.dedup.length := hp.length_eq
    have hiff : codes.dedup.isEmpty = (sortStrings codes.dedup).isEmpty := by
      rw [Bool.eq_iff_iff]
      simp only [List.isEmpty_iff_length_eq_zero, hlen]
    simp only [serializeStations]
    rw [hiff]

/-- C2 (amended): station extraction runs strategies 1 (section) and 2
(timespans) unconditionally, accumulating both into one set, and falls back to
the title scan only when that set is empty; the result is deduplicated and
serialized as a sorted comma-joined string, or null when empty; the record
whose only signal is `title = "Storing tussen ASD en UTR"` yields a result
containing both "ASD" and "UTR". -/
theorem station_extraction_union_with_title_fallback :
    (∀ r : StationSource, ∃ l : List String,
        l.Sorted (fun a b => strLe a b = true) ∧ l.Nodup ∧
        (∀ c, c ∈ l ↔ c ∈ collectedStations r) ∧
        extract_stations r = if l.isEmpty then none else some (String.intercalate "," l)) ∧
    extract_stations titleOnlyRecord = some "ASD,UTR" := by
  refine ⟨fun r => ?_, by decide⟩
  have heq : extract_stations r = serializeStations (collectedStations r) := rfl
  rw [heq]
  exact serializeStations_spec (collectedStations r)

/-- C2 counterexample: on a record carrying station codes in both structured
shapes, the implementation unions strategies 1 and 2 ("AAA,BBB") instead of
stopping at the first non-empty strategy ("AAA") as the claim states. -/
theorem station_extraction_first_match_refuted :
    extract_stations cexStationRecord = some "AAA,BBB" ∧
    claimedFirstNonEmptyExtract cexStationRecord = some "AAA" ∧
    extract_stations cexStationRecord ≠ claimedFirstNonEmptyExtract cexStationRecord :=
  ⟨by decide, by decide, by decide⟩

/-- C5: type normalization is case-insensitive (records agreeing after
lower-casing normalize identically), "verstoring" maps to "disruption", the
unrecognized "foo" stays "foo", and any value missing from the lookup table
passes through (as its lower-cased form) instead of being dropped or erred. -/
theorem type_mapping_case_insensitive_open :
    (∀ s t : String, pyLower s = pyLower t → normalize_type s = normalize_type t) ∧
    normalize_type "verstoring" = "disruption" ∧
    normalize_type "foo" = "foo" ∧
    (∀ t : String, lookupAssoc type_mapping (pyLower t) = none →
      normalize_type t = pyLower t) :=
  ⟨fun s t h => by simp only [normalize_type, h],
   by decide, by decide,
   fun t h => by simp only [normalize_type, h]⟩

/-- Witness for C5 at concrete inputs. -/
theorem type_mapping_case_insensitive_open_witness :
    normalize_type "VERSTORING" = normalize_type "verstoring" ∧
    normalize_type "Foo" = pyLower "Foo" :=
  ⟨type_mapping_case_insensitive_open.1 "VERSTORING" "verstoring" (by decide),
   type_mapping_case_insensitive_open.2.2.2 "Foo" (by decide)⟩

/-- C9: every record surviving `_validate_and_clean` carries an
`impact_level` clamped into [1,5]. -/
theorem impact_level_in_range_after_validation (rows : List PreRow) (now : ℚ) :
    ∀ r ∈ (validate_and_clean rows now).1, 1 ≤ r.impact_level ∧ r.impact_level ≤ 5 := by
  intro r hr
  simp only [validate_and_clean, List.mem_map, List.mem_filter] at hr
  obtain ⟨p, _, rfl⟩ := hr
  exact ⟨le_min (by norm_num) (le_max_left _ _), min_le_left _ _⟩

/-- Witness for C9: a raw impact level of 99 is clamped to 5 by validation. -/
theorem impact_level_in_range_after_validation_witness :
    1 ≤ ({ disruption_id := "d1", type := some "x", title := none, description := none,
           start_time := none, end_time := none, duration_minutes := none,
           impact_level := 5, affected_stations := none, is_resolved := 0,
           created_at := 0, updated_at := 0 } : CleanRow).impact_level ∧
    ({ disruption_id := "d1", type := some "x", title := none, description := none,
       start_time := none, end_time := none, duration_minutes := none,
       impact_level := 5, affected_stations := none, is_resolved := 0,
       created_at := 0, updated_at := 0 } : CleanRow).impact_level ≤ 5 :=
  impact_level_in_range_after_validation
    [{ disruption_id := some "d1", type := some "x", title := none, description := none,
       start_time := none, end_time := none, duration_minutes := none,
       impact_level := 99, affected_stations := none }] 0 _ (by decide)

/-- C10: the severity classifier only ever returns 2, 3, 4 or 5 — level 1 is
unreachable — so the validator's clamp into [1,5] never changes a
classifier-produced value. -/
theorem classifier_range_clamp_noop (ty : Option String) (dur : Option ℚ) :
    (calculate_impact_level ty dur = 2 ∨ calculate_impact_level ty dur = 3 ∨
     calculate_impact_level ty dur = 4 ∨ calculate_impact_level ty dur = 5) ∧
    calculate_impact_level ty dur ≠ 1 ∧
    clipImpact (calculate_impact_level ty dur) = calculate_impact_level ty dur := by
  have h : calculate_impact_level ty dur = 2 ∨ calculate_impact_level ty dur = 3 ∨
      calculate_impact_level ty dur = 4 ∨ calculate_impact_level ty dur = 5 := by
    simp only [calculate_impact_level]
    split_ifs <;> simp
  refine ⟨h, ?_, ?_⟩
  · rcases h with h | h | h | h <;> rw [h] <;> decide
  · rcases h with h | h | h | h <;> rw [h] <;> decide

/-- C6: `duration_minutes` is `(end - start)/60` exactly when both timestamps
are present; it is non-negative whenever non-null, is null when `end < start`
(nulled, not clamped to zero), and is null when either timestamp is missing. -/
theorem duration_nonneg_or_null (s e : ℚ) (a b : Option ℚ) :
    (∀ d, calculate_duration a b = some d → 0 ≤ d) ∧
    (s ≤ e → calculate_duration (some s) (some e) = some ((e - s) / 60)) ∧
    (e < s → calculate_duration (some s) (some e) = none) ∧
    calculate_duration none b = none ∧
    calculate_duration a none = none := by
  refine ⟨?_, ?_, ?_, by simp [calculate_duration], ?_⟩
  · intro d hd
    match a, b with
    | none, _ => simp [calculate_duration] at hd
    | some x, none => simp [calculate_duration] at hd
    | some x, some y =>
      simp only [calculate_duration] at hd
      by_cases hneg : (y - x) / 60 < 0
      · simp [hneg] at hd
      · simp only [if_neg hneg, Option.some.injEq] at hd
        exact hd ▸ not_lt.mp hneg
  · intro h
    have hnn : ¬ ((e - s) / 60 < 0) :=
      not_lt.mpr (div_nonneg (sub_nonneg.mpr h) (by norm_num))
    simp [calculate_duration, hnn]
  · intro h
    have hneg : (e - s) / 60 < 0 :=
      div_neg_of_neg_of_pos (by linarith) (by norm_num)
    simp [calculate_duration, hneg]
  · match a with
    | none => simp [calculate_duration]
    | some x => simp [calculate_duration]

/-- Witness for C6 at concrete timestamps (90 minutes, and a reversed pair). -/
theorem duration_nonneg_or_null_witness :
    calculate_duration (some 0) (some 5400) = some ((5400 - 0) / 60) ∧
    calculate_duration (some 5400) (some 0) = none :=
  ⟨(duration_nonneg_or_null 0 5400 none none).2.1 (by norm_num),
   (duration_nonneg_or_null 5400 0 none none).2.2.1 (by norm_num)⟩

/-- C1: the impact classifier is exactly the spec's first-match-wins severity
decision table (calamity 5; "cancel" substring 5; maintenance >240 → 4 else 3;
disruption >120 → 4, >60 → 3, else 2; default 2), with a missing duration read
as 0 for the comparisons only — the stored duration of the row is whatever the
duration computation produced, untouched by classification — and the two
maintenance scenarios give levels 4 and 3. -/
theorem severity_decision_table (ty : Option String) (dur : Option ℚ)
    (startT endT : Option ℚ) :
    calculate_impact_level ty dur = firstMatch severityRules (ty.getD "") (dur.getD 0) ∧
    (calculate_metrics ty startT endT).1 = calculate_duration startT endT ∧
    calculate_impact_level (some "maintenance") (some 300) = 4 ∧
    calculate_impact_level (some "maintenance") (some 100) = 3 := by
  refine ⟨?_, rfl, by decide, by decide⟩
  simp only [calculate_impact_level, severityRules, firstMatch]
  split_ifs <;> simp_all <;> linarith

theorem rawHasKey_append (db : RawDB) (x : String × String) (k : String) :
    rawHasKey (db ++ [x]) k = (rawHasKey db k || x.1 == k) := by
  simp [rawHasKey, List.any_append]

theorem rawHasKey_insertIfAbsent (db : RawDB) (k p k2 : String) :
    rawHasKey (insertIfAbsent db k p).1 k2 = (rawHasKey db k2 || k == k2) := by
  simp only [insertIfAbsent]
  split
  · next h =>
    by_cases h2 : k = k2
    · subst h2; simp [h]
    · simp [h2]
  · next h => simp [rawHasKey_append]

theorem rawHasKey_save_mono (items : List RawItem) (db : RawDB) (k : String)
    (h : rawHasKey db k = true) : rawHasKey (save_raw_data items db).1 k = true := by
  induction items generalizing db with
  | nil => simpa [save_raw_data] using h
  | cons it rest ih =>
    cases hid : it.id with
    | none =>
      simp only [save_raw_data, hid]
      exact ih db h
    | some s =>
      by_cases hs : s.isEmpty = true
      · simp only [save_raw_data, hid, if_pos hs]
        exact ih db h
      · simp only [save_raw_data, hid, if_neg hs]
        exact ih _ (by rw [rawHasKey_insertIfAbsent]; simp [h])

theorem save_raw_ensures_keys (items : List RawItem) (db : RawDB) :
    ∀ it ∈ items, ∀ s, it.id = some s → s.isEmpty = false →
      rawHasKey (save_raw_data items db).1 s = true := by
  induction items generalizing db with
  | nil => intro it h; cases h
  | cons x rest ih =>
    intro it hmem s hid hs
    rcases List.mem_cons.mp hmem with rfl | hmem2
    · simp only [save_raw_data, hid, hs]
      simp only [Bool.false_eq_true, if_false]
      apply rawHasKey_save_mono
      rw [rawHasKey_insertIfAbsent]
      simp
    · cases hxid : x.id with
      | none =>
        simp only [save_raw_data, hxid]
        exact ih db it hmem2 s hid hs
      | some t =>
        by_cases ht : t.isEmpty = true
        · simp only [save_raw_data, hxid, if_pos ht]
          exact ih db it hmem2 s hid hs
        · simp only [save_raw_data, hxid, if_neg ht]
          exact ih _ it hmem2 s hid hs

theorem save_raw_noop_when_keys_present (items : List RawItem) (db : RawDB)
    (h : ∀ it ∈ items, ∀ s, it.id = some s → s.isEmpty = false → rawHasKey db s = true) :
    (save_raw_data items db).1 = db := by
  induction items generalizing db with
  | nil => rfl
  | cons x rest ih =>
    cases hxid : x.id with
    | none =>
      simp only [save_raw_data, hxid]
      exact ih db fun it hm => h it (List.mem_cons_of_mem _ hm)
    | some s =>
      by_cases hs : s.isEmpty = true
      · simp only [save_raw_data, hxid, if_pos hs]
        exact ih db fun it hm => h it (List.mem_cons_of_mem _ hm)
      · simp only [save_raw_data, hxid, if_neg hs]
        have hk : rawHasKey db s = true :=
          h x (List.mem_cons_self _ _) s hxid (by simpa using hs)
        rw [show (insertIfAbsent db s x.rawJson).1 = db from by simp [insertIfAbsent, hk]]
        exact ih db fun it hm => h it (List.mem_cons_of_mem _ hm)

theorem rawLookup_append (db : RawDB) (x : String × String) (k p : String)
    (h : rawLookup db k = some p) : rawLookup (db ++ [x]) k = some p := by
  simp only [rawLookup, List.find?_append]
  simp only [rawLookup] at h
  cases hf : db.find? (fun q => q.1 == k) with
  | none => rw [hf] at h; simp at h
  | some q => rw [hf] at h; simpa using h

theorem rawLookup_save_mono (items : List RawItem) (db : RawDB) (k p : String)
    (h : rawLookup db k = some p) : rawLookup (save_raw_data items db).1 k = some p := by
  induction items generalizing db with
  | nil => simpa [save_raw_data] using h
  | cons it rest ih =>
    cases hid : it.id with
    | none =>
      simp only [save_raw_data, hid]
      exact ih db h
    | some s =>
      by_cases hs : s.isEmpty = true
      · simp only [save_raw_data, hid, if_pos hs]
        exact ih db h
      · simp only [save_raw_data, hid, if_neg hs]
        apply ih
        simp only [insertIfAbsent]
        split
        · exact h
        · exact rawLookup_append db _ k p h

/-- C8: running `_save_raw_data` twice over the same raw batch leaves the raw
table exactly as the first run left it (so in particular the row count is
unchanged), and a payload already stored under a key is never modified by a
later run — `INSERT OR IGNORE` is a no-op, not an update. -/
theorem raw_insert_idempotent (items : List RawItem) (db : RawDB) :
    (save_raw_data items (save_raw_data items db).1).1 = (save_raw_data items db).1 ∧
    (∀ k p, rawLookup db k = some p →
      rawLookup (save_raw_data items db).1 k = some p) := by
  constructor
  · apply save_raw_noop_when_keys_present
    intro it hm s hid hs
    exact save_raw_ensures_keys items db it hm s hid hs
  · intro k p h
    exact rawLookup_save_mono items db k p h

/-- Witness for C8: a second identical run over a one-item batch changes
nothing, and the payload first stored under "a" survives a later run. -/
theorem raw_insert_idempotent_witness :
    (save_raw_data [{ id := some "a", rawJson := "p2" }]
      (save_raw_data [{ id := some "a", rawJson := "p2" }] [("a", "p1")]).1).1 =
      (save_raw_data [{ id := some "a", rawJson := "p2" }] [("a", "p1")]).1 ∧
    rawLookup (save_raw_data [{ id := some "a", rawJson := "p2" }] [("a", "p1")]).1 "a" =
      some "p1" :=
  ⟨(raw_insert_idempotent [{ id := some "a", rawJson := "p2" }] [("a", "p1")]).1,
   (raw_insert_idempotent [{ id := some "a", rawJson := "p2" }] [("a", "p1")]).2
     "a" "p1" (by decide)⟩

theorem save_raw_skips_missing_id (post : List RawItem) (bad : RawItem)
    (hbad : bad.id = none) :
    ∀ pre db, save_raw_data (pre ++ bad :: post) db = save_raw_data (pre ++ post) db := by
  intro pre
  induction pre with
  | nil =>
    intro db
    simp only [List.nil_append, save_raw_data, hbad]
  | cons x xs ih =>
    intro db
    cases hx : x.id with
    | none =>
      simp only [List.cons_append, save_raw_data, hx]
      exact ih db
    | some s =>
      by_cases hs : s.isEmpty = true
      · simp only [List.cons_append, save_raw_data, hx, if_pos hs]
        exact ih db
      · simp only [List.cons_append, save_raw_data, hx, if_neg hs, List.append_eq]
        rw [ih]

/-- C3: a record whose identifier field is missing is passed over by the raw
insert (the raw store and its counters end exactly as if the record were not
in the batch), is dropped by validation — so it never reaches the normalized
upsert — and is counted: the validator's removed tally is one higher than for
the same batch without it. The remaining records persist exactly as they
would alone. -/
theorem missing_id_excluded_counted_not_fatal (pre post : List RawItem) (bad : RawItem)
    (db : RawDB) (rows1 rows2 : List PreRow) (badRow : PreRow) (now : ℚ)
    (hbad : bad.id = none) (hbadRow : badRow.disruption_id = none) :
    save_raw_data (pre ++ bad :: post) db = save_raw_data (pre ++ post) db ∧
    (validate_and_clean (rows1 ++ badRow :: rows2) now).1 =
      (validate_and_clean (rows1 ++ rows2) now).1 ∧
    (validate_and_clean (rows1 ++ badRow :: rows2) now).2 =
      (validate_and_clean (rows1 ++ rows2) now).2 + 1 ∧
    ∀ ndb : NormDB,
      save_cleaned_data (validate_and_clean (rows1 ++ badRow :: rows2) now).1 ndb =
        save_cleaned_data (validate_and_clean (rows1 ++ rows2) now).1 ndb := by
  have hfilter : (rows1 ++ badRow :: rows2).filter (fun r => r.disruption_id.isSome) =
      rows1.filter (fun r => r.disruption_id.isSome) ++
        rows2.filter (fun r => r.disruption_id.isSome) := by
    simp [List.filter_append, List.filter_cons, hbadRow]
  have hkeep : (validate_and_clean (rows1 ++ badRow :: rows2) now).1 =
      (validate_and_clean (rows1 ++ rows2) now).1 := by
    simp only [validate_and_clean, hfilter, List.filter_append]
  refine ⟨save_raw_skips_missing_id post bad hbad pre db, hkeep, ?_, fun ndb => by rw [hkeep]⟩
  simp only [validate_and_clean, hfilter, List.filter_append, List.length_append,
    List.length_cons]
  have h1 := List.length_filter_le (fun r : PreRow => r.disruption_id.isSome) rows1
  have h2 := List.length_filter_le (fun r : PreRow => r.disruption_id.isSome) rows2
  omega

/-- Witness for C3 on a concrete two-record batch (one missing its id). -/
theorem missing_id_excluded_counted_not_fatal_witness :
    save_raw_data [{ id := none, rawJson := "px" }, { id := some "b", rawJson := "pb" }] [] =
      save_raw_data [{ id := some "b", rawJson := "pb" }] [] ∧
    (validate_and_clean
      [{ disruption_id := none, type := none, title := none, description := none,
         start_time := none, end_time := none, duration_minutes := none,
         impact_level := 2, affected_stations := none },
       { disruption_id := some "b", type := some "disruption", title := none,
         description := none, start_time := none, end_time := none,
         duration_minutes := none, impact_level := 2, affected_stations := none }] 0).1 =
      (validate_and_clean
        [{ disruption_id := some "b", type := some "disruption", title := none,
           description := none, start_time := none, end_time := none,
           duration_minutes := none, impact_level := 2, affected_stations := none }] 0).1 ∧
    (validate_and_clean
      [{ disruption_id := none, type := none, title := none, description := none,
         start_time := none, end_time := none, duration_minutes := none,
         impact_level := 2, affected_stations := none },
       { disruption_id := some "b", type := some "disruption", title := none,
         description := none, start_time := none, end_time := none,
         duration_minutes := none, impact_level := 2, affected_stations := none }] 0).2 =
      (validate_and_clean
        [{ disruption_id := some "b", type := some "disruption", title := none,
           description := none, start_time := none, end_time := none,
           duration_minutes := none, impact_level := 2, affected_stations := none }] 0).2 + 1 ∧
    save_cleaned_data (validate_and_clean
      [{ disruption_id := none, type := none, title := none, description := none,
         start_time := none, end_time := none, duration_minutes := none,
         impact_level := 2, affected_stations := none },
       { disruption_id := some "b", type := some "disruption", title := none,
         description := none, start_time := none, end_time := none,
         duration_minutes := none, impact_level := 2, affected_stations := none }] 0).1 [] =
      save_cleaned_data (validate_and_clean
        [{ disruption_id := some "b", type := some "disruption", title := none,
           description := none, start_time := none, end_time := none,
           duration_minutes := none, impact_level := 2, affected_stations := none }] 0).1 [] :=
  ⟨(missing_id_excluded_counted_not_fatal [] [{ id := some "b", rawJson := "pb" }]
      { id := none, rawJson := "px" } [] []
      [{ disruption_id := some "b", type := some "disruption", title := none,
         description := none, start_time := none, end_time := none,
         duration_minutes := none, impact_level := 2, affected_stations := none }]
      { disruption_id := none, type := none, title := none, description := none,
        start_time := none, end_time := none, duration_minutes := none,
        impact_level := 2, affected_stations := none } 0 rfl rfl).1,
   (missing_id_excluded_counted_not_fatal [] [{ id := some "b", rawJson := "pb" }]
      { id := none, rawJson := "px" } [] []
      [{ disruption_id := some "b", type := some "disruption", title := none,
         description := none, start_time := none, end_time := none,
         duration_minutes := none, impact_level := 2, affected_stations := none }]
      { disruption_id := none, type := none, title := none, description := none,
        start_time := none, end_time := none, duration_minutes := none,
        impact_level := 2, affected_stations := none } 0 rfl rfl).2.1,
   (missing_id_excluded_counted_not_fatal [] [{ id := some "b", rawJson := "pb" }]
      { id := none, rawJson := "px" } [] []
      [{ disruption_id := some "b", type := some "disruption", title := none,
         description := none, start_time := none, end_time := none,
         duration_minutes := none, impact_level := 2, affected_stations := none }]
      { disruption_id := none, type := none, title := none, description := none,
        start_time := none, end_time := none, duration_minutes := none,
        impact_level := 2, affected_stations := none } 0 rfl rfl).2.2.1,
   (missing_id_excluded_counted_not_fatal [] [{ id := some "b", rawJson := "pb" }]
      { id := none, rawJson := "px" } [] []
      [{ disruption_id := some "b", type := some "disruption", title := none,
         description := none, start_time := none, end_time := none,
         duration_minutes := none, impact_level := 2, affected_stations := none }]
      { disruption_id := none, type := none, title := none, description := none,
        start_time := none, end_time := none, duration_minutes := none,
        impact_level := 2, affected_stations := none } 0 rfl rfl).2.2.2 []⟩

theorem updateRow_map_keys (row : CleanRow) (k : String) (dbx : NormDB) :
    (dbx.map (fun r =>
        if r.disruption_id == row.disruption_id then updateRow r row else r)).any
      (fun r => r.disruption_id == k) = dbx.any (fun r => r.disruption_id == k) := by
  induction dbx with
  | nil => rfl
  | cons y ys ihy =>
    simp only [List.map_cons, List.any_cons, ihy]
    congr 1
    split <;> rfl

theorem normHasKey_upsertRow (db : NormDB) (row : CleanRow) (k : String) :
    normHasKey (upsertRow db row).1 k = (normHasKey db k || row.disruption_id == k) := by
  by_cases hc : (findRow db row.disruption_id).isSome = true
  · have hkey : db.any (fun r => r.disruption_id == row.disruption_id) = true := by
      simp only [findRow, List.find?_isSome] at hc
      simp only [List.any_eq_true]
      exact hc
    simp only [upsertRow, if_pos hc, normHasKey]
    rw [updateRow_map_keys]
    by_cases hk : row.disruption_id = k
    · subst hk
      simp [hkey]
    · have hbk : (row.disruption_id == k) = false := by simp [hk]
      rw [hbk, Bool.or_false]
  · simp only [upsertRow, if_neg hc, normHasKey]
    simp [List.any_append, insertRow]

theorem upsert_length_present (db : NormDB) (row : CleanRow)
    (h : normHasKey db row.disruption_id = true) :
    ((upsertRow db row).1).length = db.length := by
  have hsome : (findRow db row.disruption_id).isSome = true := by
    simp only [findRow, List.find?_isSome]
    simpa [normHasKey, List.any_eq_true] using h
  simp [upsertRow, hsome]

theorem normHasKey_save_mono (rows : List CleanRow) (db : NormDB) (k : String)
    (h : normHasKey db k = true) :
    normHasKey (save_cleaned_data rows db) k = true := by
  induction rows generalizing db with
  | nil => exact h
  | cons r rest ih =>
    simp only [save_cleaned_data]
    exact ih _ (by rw [normHasKey_upsertRow]; simp [h])

theorem save_cleaned_ensures_keys (rows : List CleanRow) (db : NormDB) :
    ∀ r ∈ rows, normHasKey (save_cleaned_data rows db) r.disruption_id = true := by
  induction rows generalizing db with
  | nil => intro r hr; cases hr
  | cons x rest ih =>
    intro r hr
    rcases List.mem_cons.mp hr with rfl | hr2
    · simp only [save_cleaned_data]
      apply normHasKey_save_mono
      rw [normHasKey_upsertRow]
      simp
    · simp only [save_cleaned_data]
      exact ih _ r hr2

theorem save_cleaned_length_when_keys_present (rows : List CleanRow) (db : NormDB)
    (h : ∀ r ∈ rows, normHasKey db r.disruption_id = true) :
    (save_cleaned_data rows db).length = db.length := by
  induction rows generalizing db with
  | nil => rfl
  | cons x rest ih =>
    have hx : normHasKey db x.disruption_id = true := h x (List.mem_cons_self _ _)
    have hrest : ∀ r ∈ rest, normHasKey (upsertRow db x).1 r.disruption_id = true := by
      intro r hr
      rw [normHasKey_upsertRow]
      simp [h r (List.mem_cons_of_mem _ hr)]
    simp only [save_cleaned_data]
    rw [ih _ hrest, upsert_length_present db x hx]

theorem mem_upsert_of_ne (db : NormDB) (row : CleanRow) (x : DBRow)
    (hx : x ∈ (upsertRow db row).1) (hne : x.disruption_id ≠ row.disruption_id) :
    x ∈ db := by
  by_cases hc : (findRow db row.disruption_id).isSome = true
  · rw [upsertRow, if_pos hc] at hx
    obtain ⟨y, hy, hfy⟩ := List.mem_map.mp hx
    by_cases hyk : (y.disruption_id == row.disruption_id) = true
    · rw [if_pos hyk] at hfy
      have : x.disruption_id = y.disruption_id := by rw [← hfy]; rfl
      rw [this] at hne
      exact absurd (by simpa using hyk) hne
    · rw [if_neg hyk] at hfy
      exact hfy ▸ hy
  · rw [upsertRow, if_neg hc] at hx
    rcases List.mem_append.mp hx with h1 | h2
    · exact h1
    · have hx2 : x = insertRow row := by simpa using h2
      exact absurd (by rw [hx2]; rfl) hne

theorem upsert_key_updated_at (db : NormDB) (row : CleanRow) (x : DBRow)
    (hx : x ∈ (upsertRow db row).1) (hk : x.disruption_id = row.disruption_id) :
    x.updated_at = row.updated_at := by
  by_cases hc : (findRow db row.disruption_id).isSome = true
  · rw [upsertRow, if_pos hc] at hx
    obtain ⟨y, hy, hfy⟩ := List.mem_map.mp hx
    by_cases hyk : (y.disruption_id == row.disruption_id) = true
    · rw [if_pos hyk] at hfy
      rw [← hfy]
      rfl
    · rw [if_neg hyk] at hfy
      rw [← hfy] at hk
      exact absurd (by simp [hk]) hyk
  · rw [upsertRow, if_neg hc] at hx
    rcases List.mem_append.mp hx with h1 | h2
    · have hnone : findRow db row.disruption_id = none :=
        Option.not_isSome_iff_eq_none.mp hc
      simp only [findRow, List.find?_eq_none] at hnone
      exact absurd (by simp [hk]) (hnone x h1)
    · have hx2 : x = insertRow row := by simpa using h2
      rw [hx2]
      rfl

theorem save_cleaned_frame (rows : List CleanRow) (db : NormDB) (x : DBRow)
    (hx : x ∈ save_cleaned_data rows db)
    (hne : ∀ r ∈ rows, x.disruption_id ≠ r.disruption_id) : x ∈ db := by
  induction rows generalizing db with
  | nil => exact hx
  | cons y rest ih =>
    simp only [save_cleaned_data] at hx
    have hmem := ih _ hx (fun r hr => hne r (List.mem_cons_of_mem _ hr))
    exact mem_upsert_of_ne db y x hmem (hne y (List.mem_cons_self _ _))

theorem save_cleaned_stamp (rows : List CleanRow) (db : NormDB) (t : ℚ)
    (hall : ∀ r ∈ rows, r.updated_at = t) :
    ∀ x ∈ save_cleaned_data rows db,
      (∃ r ∈ rows, x.disruption_id = r.disruption_id) → x.updated_at = t := by
  induction rows generalizing db with
  | nil =>
    intro x _ hex
    obtain ⟨r, hr, _⟩ := hex
    cases hr
  | cons y rest ih =>
    intro x hx hex
    simp only [save_cleaned_data] at hx
    by_cases hrest : ∃ r ∈ rest, x.disruption_id = r.disruption_id
    · exact ih _ (fun r hr => hall r (List.mem_cons_of_mem _ hr)) x hx hrest
    · obtain ⟨r, hr, hkey⟩ := hex
      rcases List.mem_cons.mp hr with rfl | hr2
      · have hxin : x ∈ (upsertRow db r).1 :=
          save_cleaned_frame rest _ x hx (fun q hq hh => hrest ⟨q, hq, hh⟩)
        rw [upsert_key_updated_at db r x hxin hkey]
        exact hall r (List.mem_cons_self _ _)
      · exact absurd ⟨r, hr2, hkey⟩ hrest

theorem validate_keys_time_indep (batch : List PreRow) (t t' : ℚ) :
    ((validate_and_clean batch t).1).map (fun r => r.disruption_id) =
      ((validate_and_clean batch t').1).map (fun r => r.disruption_id) := by
  simp [validate_and_clean, List.map_map]

theorem validate_stamp (batch : List PreRow) (t : ℚ) :
    ∀ r ∈ (validate_and_clean batch t).1, r.updated_at = t := by
  intro r hr
  simp only [validate_and_clean, List.mem_map] at hr
  obtain ⟨p, _, rfl⟩ := hr
  rfl

/-- C7: when the upsert finds an existing row for the incoming
`disruption_id`, it takes the UPDATE branch (no insert, row count unchanged):
every stored row matching the key gets exactly the nine mutable columns
(type, title, description, start_time, end_time, duration_minutes,
impact_level, affected_stations, updated_at) from the incoming row while its
`disruption_id`, `created_at` and `is_resolved` stay what was stored; every
row with a different key is untouched. -/
theorem upsert_overwrites_mutable_only (db : NormDB) (row : CleanRow) (old : DBRow)
    (h : findRow db row.disruption_id = some old) :
    (upsertRow db row).2 = true ∧
    ((upsertRow db row).1).length = db.length ∧
    ∀ i : ℕ, i < db.length →
      ∃ r r2, db[i]? = some r ∧ ((upsertRow db row).1)[i]? = some r2 ∧
        (r.disruption_id = row.disruption_id →
          r2.type = row.type ∧ r2.title = row.title ∧ r2.description = row.description ∧
          r2.start_time = row.start_time ∧ r2.end_time = row.end_time ∧
          r2.duration_minutes = row.duration_minutes ∧
          r2.impact_level = row.impact_level ∧
          r2.affected_stations = row.affected_stations ∧
          r2.updated_at = row.updated_at ∧
          r2.disruption_id = r.disruption_id ∧ r2.created_at = r.created_at ∧
          r2.is_resolved = r.is_resolved) ∧
        (r.disruption_id ≠ row.disruption_id → r2 = r) := by
  have hsome : (findRow db row.disruption_id).isSome = true := by rw [h]; rfl
  refine ⟨by simp [upsertRow, hsome], by simp [upsertRow, hsome], ?_⟩
  intro i hi
  have hr : db[i]? = some db[i] := List.getElem?_eq_getElem hi
  by_cases hk : db[i].disruption_id = row.disruption_id
  · refine ⟨db[i], updateRow db[i] row, hr, ?_, ?_, ?_⟩
    · simp [upsertRow, hsome, List.getElem?_map, hr, hk]
    · intro _
      refine ⟨rfl, rfl, rfl, rfl, rfl, rfl, rfl, rfl, rfl, rfl, rfl, rfl⟩
    · intro hne
      exact absurd hk hne
  · refine ⟨db[i], db[i], hr, ?_, ?_, ?_⟩
    · simp [upsertRow, hsome, List.getElem?_map, hr, hk]
    · intro heq
      exact absurd heq hk
    · intro _
      rfl

/-- Witness for C7: updating the one-row table at key "k" keeps `created_at`
10 and `is_resolved` 0 while taking the new mutable values. -/
theorem upsert_overwrites_mutable_only_witness :
    ∃ r r2,
      ([{ disruption_id := "k", type := some "t0", title := none, description := none,
          start_time := none, end_time := none, duration_minutes := none,
          impact_level := 2, affected_stations := none, is_resolved := 0,
          created_at := 10, updated_at := 10 }] : NormDB)[0]? = some r ∧
      ((upsertRow
        [{ disruption_id := "k", type := some "t0", title := none, description := none,
           start_time := none, end_time := none, duration_minutes := none,
           impact_level := 2, affected_stations := none, is_resolved := 0,
           created_at := 10, updated_at := 10 }]
        { disruption_id := "k", type := some "t1", title := some "new", description := none,
          start_time := none, end_time := none, duration_minutes := some 30,
          impact_level := 3, affected_stations := none, is_resolved := 0,
          created_at := 20, updated_at := 20 }).1)[0]? = some r2 ∧
      (r.disruption_id = "k" →
        r2.type = some "t1" ∧ r2.title = some "new" ∧ r2.description = none ∧
        r2.start_time = none ∧ r2.end_time = none ∧
        r2.duration_minutes = some 30 ∧ r2.impact_level = 3 ∧
        r2.affected_stations = none ∧ r2.updated_at = 20 ∧
        r2.disruption_id = r.disruption_id ∧ r2.created_at = r.created_at ∧
        r2.is_resolved = r.is_resolved) ∧
      (r.disruption_id ≠ "k" → r2 = r) :=
  (upsert_overwrites_mutable_only
    [{ disruption_id := "k", type := some "t0", title := none, description := none,
       start_time := none, end_time := none, duration_minutes := none,
       impact_level := 2, affected_stations := none, is_resolved := 0,
       created_at := 10, updated_at := 10 }]
    { disruption_id := "k", type := some "t1", title := some "new", description := none,
      start_time := none, end_time := none, duration_minutes := some 30,
      impact_level := 3, affected_stations := none, is_resolved := 0,
      created_at := 20, updated_at := 20 }
    { disruption_id := "k", type := some "t0", title := none, description := none,
      start_time := none, end_time := none, duration_minutes := none,
      impact_level := 2, affected_stations := none, is_resolved := 0,
      created_at := 10, updated_at := 10 }
    (by decide)).2.2 0 (by decide)

/-- C4: re-running the cleaned-batch upsert with the same canonical batch
(re-stamped at the later run time t2 > t1, as `_validate_and_clean` stamps
`updated_at = now` on every run) leaves the normalized table's row count
unchanged, while every affected row's `updated_at` — t1 after the first run —
becomes t2 > t1 on the second. -/
theorem upsert_rerun_count_stable_refresh (batch : List PreRow) (db : NormDB)
    (t1 t2 : ℚ) (h : t1 < t2) :
    (save_cleaned_data (validate_and_clean batch t2).1
        (save_cleaned_data (validate_and_clean batch t1).1 db)).length =
      (save_cleaned_data (validate_and_clean batch t1).1 db).length ∧
    (∀ x ∈ save_cleaned_data (validate_and_clean batch t1).1 db,
      (∃ r ∈ (validate_and_clean batch t1).1, x.disruption_id = r.disruption_id) →
        x.updated_at = t1) ∧
    (∀ x ∈ save_cleaned_data (validate_and_clean batch t2).1
        (save_cleaned_data (validate_and_clean batch t1).1 db),
      (∃ r ∈ (validate_and_clean batch t2).1, x.disruption_id = r.disruption_id) →
        x.updated_at = t2 ∧ t1 < x.updated_at) := by
  refine ⟨?_, ?_, ?_⟩
  · apply save_cleaned_length_when_keys_present
    intro r hr
    have hmap := validate_keys_time_indep batch t2 t1
    have hmem : r.disruption_id ∈
        ((validate_and_clean batch t1).1).map (fun q => q.disruption_id) := by
      rw [← hmap]
      exact List.mem_map_of_mem _ hr
    obtain ⟨r1, hr1, hkey⟩ := List.mem_map.mp hmem
    rw [← hkey]
    exact save_cleaned_ensures_keys (validate_and_clean batch t1).1 db r1 hr1
  · intro x hx hex
    exact save_cleaned_stamp _ db t1 (validate_stamp batch t1) x hx hex
  · intro x hx hex
    have h2 := save_cleaned_stamp _ _ t2 (validate_stamp batch t2) x hx hex
    exact ⟨h2, h2 ▸ h⟩

/-- Witness for C4: one-record batch keyed "a", empty table, runs stamped at
0 and 1 — the second run keeps one row and its `updated_at` becomes 1 > 0. -/
theorem upsert_rerun_count_stable_refresh_witness :
    (save_cleaned_data (validate_and_clean
        [{ disruption_id := some "a", type := some "disruption", title := none,
           description := none, start_time := none, end_time := none,
           duration_minutes := none, impact_level := 2, affected_stations := none }] 1).1
      (save_cleaned_data (validate_and_clean
        [{ disruption_id := some "a", type := some "disruption", title := none,
           description := none, start_time := none, end_time := none,
           duration_minutes := none, impact_level := 2, affected_stations := none }] 0).1
        [])).length =
      (save_cleaned_data (validate_and_clean
        [{ disruption_id := some "a", type := some "disruption", title := none,
           description := none, start_time := none, end_time := none,
           duration_minutes := none, impact_level := 2, affected_stations := none }] 0).1
        []).length ∧
    (({ disruption_id := "a", type := some "disruption", title := none,
        description := none, start_time := none, end_time := none,
        duration_minutes := none, impact_level := 2, affected_stations := none,
        is_resolved := 0, created_at := 0, updated_at := 1 } : DBRow).updated_at = 1 ∧
      (0:ℚ) <
        ({ disruption_id := "a", type := some "disruption", title := none,
           description := none, start_time := none, end_time := none,
           duration_minutes := none, impact_level := 2, affected_stations := none,
           is_resolved := 0, created_at := 0, updated_at := 1 } : DBRow).updated_at) :=
  ⟨(upsert_rerun_count_stable_refresh
      [{ disruption_id := some "a", type := some "disruption", title := none,
         description := none, start_time := none, end_time := none,
         duration_minutes := none, impact_level := 2, affected_stations := none }]
      [] 0 1 (by decide)).1,
   (upsert_rerun_count_stable_refresh
      [{ disruption_id := some "a", type := some "disruption", title := none,
         description := none, start_time := none, end_time := none,
         duration_minutes := none, impact_level := 2, affected_stations := none }]
      [] 0 1 (by decide)).2.2
     { disruption_id := "a", type := some "disruption", title := none,
       description := none, start_time := none, end_time := none,
       duration_minutes := none, impact_level := 2, affected_stations := none,
       is_resolved := 0, created_at := 0, updated_at := 1 }
     (by decide) (by decide)⟩

end NLRail
